import Mathlib

/-!
Verification development for the FXP preset-file parsing repository.

The repository contains four Python variants of the same core: a 60-byte
big-endian binary header, an embedded XML payload located either by the
declared `chunkSize` or by scanning for the `<?xml` / `</patch>` markers,
trailing opaque wavetable blobs, and a human-readable projection of the XML
with a base64/JSON interchange form.

Byte strings are modelled as `List Nat` (each element one byte value),
Python `str` as Lean `String`, Python `int` as `Int`, and raised
exceptions as `Except PyError` / `Option`.
-/

/-- Python exception outcomes distinguished by the sources: `formatError`
models the `AssertionError` raised by the length asserts (the spec's
`FormatError`), `attributeError` an `AttributeError` from using `None` or a
missing class attribute, `structError` a `struct.error` from packing an
out-of-range integer, `decodeError` a `UnicodeDecodeError`, and
`valueError` a `binascii.Error` from base64 decoding. -/
inductive PyError where
  | formatError
  | attributeError
  | structError
  | decodeError
  | valueError
deriving DecidableEq, Repr

/-- Python slice `l[a:b]` for `0 ≤ a ≤ b` (as used by the sources). -/
def pySlice (l : List Nat) (a b : Nat) : List Nat := (l.take b).drop a

/-- Python `bytes.find`, returning the first index at which `pat` occurs in
`l`, or `none` when it does not occur. -/
def findSub (pat : List Nat) : List Nat → Option Nat
  | [] => if pat = [] then some 0 else none
  | x :: rest =>
    if pat.isPrefixOf (x :: rest) then some 0
    else (findSub pat rest).map (fun i => i + 1)

/-- Python `bytes.find` with the `-1` sentinel for a missing pattern. -/
def pyFind (pat content : List Nat) : Int :=
  match findSub pat content with
  | some i => (i : Int)
  | none => -1

/-- Python `bytes.strip(b"\x00")`: removes NUL bytes from both ends. -/
def stripNul (bs : List Nat) : List Nat :=
  ((bs.dropWhile (fun b => b == 0)).reverse.dropWhile (fun b => b == 0)).reverse

/-- Big-endian value of a byte string. -/
def beNat (bs : List Nat) : Nat := bs.foldl (fun a b => a * 256 + b) 0

/-- Value of a 4-byte big-endian field read as a signed 32-bit integer, as
`struct.unpack ">i"` computes it. -/
def toSigned32 (bs : List Nat) : Int :=
  let n := beNat bs
  if n < 2147483648 then (n : Int) else (n : Int) - 4294967296

/-- Big-endian bytes of a signed 32-bit integer, as `struct.pack ">i"`
produces for an in-range argument. -/
def int32beBytes (v : Int) : List Nat :=
  let m := (v % 4294967296).toNat
  [m / 16777216 % 256, m / 65536 % 256, m / 256 % 256, m % 256]

/-- Range accepted by `struct.pack ">i"`. -/
def int32InRange (v : Int) : Prop := -2147483648 ≤ v ∧ v < 2147483648

instance (v : Int) : Decidable (int32InRange v) := by
  unfold int32InRange
  infer_instance

/-! ### UTF-8 codec

Python's `str.encode("utf-8")` and `bytes.decode("utf-8")`, modelled on
byte lists. Encoding maps each code point to its standard 1-4 byte
sequence; decoding is strict, rejecting truncated sequences, bad lead or
continuation bytes, overlong forms, surrogates and out-of-range points. -/

/-- UTF-8 encoding of one unicode code point. -/
def utf8EncodeChar (n : Nat) : List Nat :=
  if n < 128 then [n]
  else if n < 2048 then [192 + n / 64, 128 + n % 64]
  else if n < 65536 then [224 + n / 4096, 128 + n / 64 % 64, 128 + n % 64]
  else [240 + n / 262144, 128 + n / 4096 % 64, 128 + n / 64 % 64, 128 + n % 64]

/-- UTF-8 encoding of a Python string, `str.encode("utf-8")`. -/
def utf8EncodeString (s : String) : List Nat :=
  s.data.flatMap (fun c => utf8EncodeChar c.toNat)

/-- Pack a valid code point into a `Char`. -/
def charOfNat (n : Nat) (h : Nat.isValidChar n) : Char := Char.ofNatAux n h

theorem charOfNat_toNat (c : Char) (h : Nat.isValidChar c.toNat) :
    charOfNat c.toNat h = c := by
  apply Char.eq_of_val_eq
  exact UInt32.ext (rfl : (charOfNat c.toNat h).val.toNat = c.val.toNat)

theorem charOfNat_eq_of_eq {n : Nat} {h : Nat.isValidChar n} {c : Char}
    (e : n = c.toNat) : charOfNat n h = c := by
  subst e
  exact charOfNat_toNat c h

/-- Decode one UTF-8 sequence from a lead byte and the remaining input,
returning the decoded character and the unconsumed bytes. -/
def utf8DecodeOne (b0 : Nat) (bs : List Nat) : Option (Char × List Nat) :=
  if h0 : b0 < 128 then some (charOfNat b0 (Or.inl (by omega)), bs)
  else if b0 < 192 then none
  else if b0 < 224 then
    match bs with
    | b1 :: bs1 =>
      if 128 ≤ b1 ∧ b1 < 192 then
        if hn : 128 ≤ (b0 - 192) * 64 + (b1 - 128) ∧
            Nat.isValidChar ((b0 - 192) * 64 + (b1 - 128)) then
          some (charOfNat ((b0 - 192) * 64 + (b1 - 128)) hn.2, bs1)
        else none
      else none
    | [] => none
  else if b0 < 240 then
    match bs with
    | b1 :: b2 :: bs2 =>
      if (128 ≤ b1 ∧ b1 < 192) ∧ (128 ≤ b2 ∧ b2 < 192) then
        if hn : 2048 ≤ (b0 - 224) * 4096 + (b1 - 128) * 64 + (b2 - 128) ∧
            Nat.isValidChar ((b0 - 224) * 4096 + (b1 - 128) * 64 + (b2 - 128)) then
          some (charOfNat ((b0 - 224) * 4096 + (b1 - 128) * 64 + (b2 - 128)) hn.2, bs2)
        else none
      else none
    | _ => none
  else if b0 < 245 then
    match bs with
    | b1 :: b2 :: b3 :: bs3 =>
      if (128 ≤ b1 ∧ b1 < 192) ∧ (128 ≤ b2 ∧ b2 < 192) ∧ (128 ≤ b3 ∧ b3 < 192) then
        if hn : 65536 ≤ (b0 - 240) * 262144 + (b1 - 128) * 4096 + (b2 - 128) * 64 + (b3 - 128) ∧
            Nat.isValidChar ((b0 - 240) * 262144 + (b1 - 128) * 4096 + (b2 - 128) * 64 + (b3 - 128)) then
          some (charOfNat ((b0 - 240) * 262144 + (b1 - 128) * 4096 + (b2 - 128) * 64 + (b3 - 128)) hn.2,
            bs3)
        else none
      else none
    | _ => none
  else none

/-- Decoding loop of `bytes.decode("utf-8")`. The fuel argument only makes
the recursion structural (so that it evaluates by kernel reduction); it is
instantiated with the input length and is never exhausted, because every
step consumes at least the lead byte. -/
def utf8DecodeCharsFuel : Nat → List Nat → Option (List Char)
  | _, [] => some []
  | 0, _ :: _ => none
  | fuel + 1, b0 :: bs =>
    match utf8DecodeOne b0 bs with
    | some (c, rest) => (utf8DecodeCharsFuel fuel rest).map (fun cs => c :: cs)
    | none => none

/-- Strict UTF-8 decoding of a whole byte string to characters. -/
def utf8DecodeChars (bs : List Nat) : Option (List Char) :=
  utf8DecodeCharsFuel bs.length bs

/-- Python `bytes.decode("utf-8")`, producing a string. -/
def utf8DecodeStr (bs : List Nat) : Option String :=
  (utf8DecodeChars bs).map (fun cs => ⟨cs⟩)

set_option maxRecDepth 4096 in
theorem utf8DecodeOne_encodeChar (c : Char) (bs : List Nat) :
    ∃ b0 rest, utf8EncodeChar c.toNat = b0 :: rest ∧
      utf8DecodeOne b0 (rest ++ bs) = some (c, bs) := by
  have hv : Nat.isValidChar c.toNat := c.valid
  have hc : ∀ h' : Nat.isValidChar c.toNat, charOfNat c.toNat h' = c :=
    fun h' => charOfNat_toNat c h'
  have hlt : c.toNat < 1114112 := by
    rcases hv with h | h
    · omega
    · omega
  rcases Nat.lt_or_ge c.toNat 128 with h1 | h1
  · refine ⟨c.toNat, [], ?_, ?_⟩
    · rw [utf8EncodeChar, if_pos h1]
    · show utf8DecodeOne c.toNat bs = _
      unfold utf8DecodeOne
      rw [dif_pos h1, hc]
  rcases Nat.lt_or_ge c.toNat 2048 with h2 | h2
  · refine ⟨192 + c.toNat / 64, [128 + c.toNat % 64], ?_, ?_⟩
    · rw [utf8EncodeChar, if_neg (by omega), if_pos h2]
    · show utf8DecodeOne (192 + c.toNat / 64) ((128 + c.toNat % 64) :: bs) = _
      simp only [utf8DecodeOne]
      rw [dif_neg (by omega), if_neg (by omega), if_pos (by omega),
        if_pos (by constructor <;> omega)]
      have harith : (192 + c.toNat / 64 - 192) * 64 + (128 + c.toNat % 64 - 128) = c.toNat := by
        omega
      simp only [harith]
      rw [dif_pos ⟨h1, hv⟩, hc]
  rcases Nat.lt_or_ge c.toNat 65536 with h3 | h3
  · refine ⟨224 + c.toNat / 4096, [128 + c.toNat / 64 % 64, 128 + c.toNat % 64], ?_, ?_⟩
    · rw [utf8EncodeChar, if_neg (by omega), if_neg (by omega), if_pos h3]
    · show utf8DecodeOne (224 + c.toNat / 4096)
        ((128 + c.toNat / 64 % 64) :: (128 + c.toNat % 64) :: bs) = _
      simp only [utf8DecodeOne]
      rw [dif_neg (by omega), if_neg (by omega), if_neg (by omega), if_pos (by omega),
        if_pos (by refine ⟨⟨?_, ?_⟩, ?_, ?_⟩ <;> omega)]
      have harith : (224 + c.toNat / 4096 - 224) * 4096 + (128 + c.toNat / 64 % 64 - 128) * 64 +
          (128 + c.toNat % 64 - 128) = c.toNat := by
        omega
      simp only [harith]
      rw [dif_pos ⟨h2, hv⟩, hc]
  · refine ⟨240 + c.toNat / 262144,
      [128 + c.toNat / 4096 % 64, 128 + c.toNat / 64 % 64, 128 + c.toNat % 64], ?_, ?_⟩
    · rw [utf8EncodeChar, if_neg (by omega), if_neg (by omega), if_neg (by omega)]
    · show utf8DecodeOne (240 + c.toNat / 262144)
        ((128 + c.toNat / 4096 % 64) :: (128 + c.toNat / 64 % 64) :: (128 + c.toNat % 64) :: bs) = _
      simp only [utf8DecodeOne]
      rw [dif_neg (by omega), if_neg (by omega), if_neg (by omega), if_neg (by omega),
        if_pos (by omega), if_pos (by refine ⟨⟨?_, ?_⟩, ⟨?_, ?_⟩, ?_, ?_⟩ <;> omega)]
      have harith : (240 + c.toNat / 262144 - 240) * 262144 +
          (128 + c.toNat / 4096 % 64 - 128) * 4096 +
          (128 + c.toNat / 64 % 64 - 128) * 64 + (128 + c.toNat % 64 - 128) = c.toNat := by
        omega
      simp only [harith]
      rw [dif_pos ⟨h3, hv⟩, hc]

theorem utf8DecodeCharsFuel_encodeList (cs : List Char) (fuel : Nat)
    (h : (cs.flatMap (fun c => utf8EncodeChar c.toNat)).length ≤ fuel) :
    utf8DecodeCharsFuel fuel (cs.flatMap (fun c => utf8EncodeChar c.toNat)) = some cs := by
  induction cs generalizing fuel with
  | nil =>
    cases fuel with
    | zero => rfl
    | succ f => rfl
  | cons c cs ih =>
    obtain ⟨b0, rest, he, hd⟩ := utf8DecodeOne_encodeChar c (cs.flatMap (fun c => utf8EncodeChar c.toNat))
    rw [List.flatMap_cons, he] at h ⊢
    have hlen : (rest ++ cs.flatMap (fun c => utf8EncodeChar c.toNat)).length + 1 ≤ fuel := by
      simp only [List.length_cons, List.cons_append, List.length_append] at h ⊢
      omega
    cases fuel with
    | zero => omega
    | succ f =>
      show utf8DecodeCharsFuel (f + 1) (b0 :: (rest ++ cs.flatMap (fun c => utf8EncodeChar c.toNat))) = _
      rw [utf8DecodeCharsFuel, hd]
      show (utf8DecodeCharsFuel f (cs.flatMap (fun c => utf8EncodeChar c.toNat))).map
        (fun cs => c :: cs) = _
      rw [ih f (by simp only [List.length_append] at hlen ⊢; omega)]
      rfl

theorem utf8DecodeChars_encodeList (cs : List Char) :
    utf8DecodeChars (cs.flatMap (fun c => utf8EncodeChar c.toNat)) = some cs :=
  utf8DecodeCharsFuel_encodeList cs _ (Nat.le_refl _)

/-- Decoding inverts encoding: `bytes.decode("utf-8")` recovers exactly the
string that `str.encode("utf-8")` came from. -/
theorem utf8DecodeStr_encodeString (s : String) :
    utf8DecodeStr (utf8EncodeString s) = some s := by
  unfold utf8DecodeStr utf8EncodeString
  rw [utf8DecodeChars_encodeList]
  rfl

/-! ### Stripping and padding of the 28-byte name field -/

theorem dropWhile_zero_replicate (k : Nat) :
    (List.replicate k 0).dropWhile (fun b : Nat => b == 0) = [] := by
  rw [List.dropWhile_eq_nil_iff]
  intro x hx
  simp [List.eq_of_mem_replicate hx]

theorem stripNul_pad (bs : List Nat) (k : Nat)
    (hh : bs.head? ≠ some 0) (hl : bs.getLast? ≠ some 0) :
    stripNul (bs ++ List.replicate k 0) = bs := by
  cases bs with
  | nil =>
    unfold stripNul
    rw [List.nil_append, dropWhile_zero_replicate]
    rfl
  | cons b t =>
    have hb : ((b == 0) : Bool) = false := by
      simp only [List.head?_cons, ne_eq, Option.some.injEq] at hh
      simp [hh]
    unfold stripNul
    rw [List.cons_append, List.dropWhile_cons_of_neg (by simp [hb]), ← List.cons_append,
      List.reverse_append, List.reverse_replicate,
      List.dropWhile_append_of_pos (by
        intro a ha
        simp [List.eq_of_mem_replicate ha])]
    obtain ⟨y, ys, hys⟩ : ∃ y ys, (b :: t).reverse = y :: ys := by
      cases h' : (b :: t).reverse with
      | nil =>
        exact absurd (congrArg List.length h') (by simp)
      | cons y ys => exact ⟨y, ys, rfl⟩
    have hy : y ≠ 0 := by
      have : (b :: t).reverse.head? = (b :: t).getLast? := List.head?_reverse (b :: t)
      rw [hys] at this
      simp only [List.head?_cons] at this
      intro hy0
      exact hl (by rw [← this, hy0])
    rw [hys, List.dropWhile_cons_of_neg (by simp [hy]), ← hys, List.reverse_reverse]

/-- The 28-byte name field written by `struct.pack` with format `28s`:
truncated or NUL-padded to exactly 28 bytes. -/
def pad28 (bs : List Nat) : List Nat := bs.take 28 ++ List.replicate (28 - bs.length) 0

theorem pad28_length (bs : List Nat) (h : bs.length ≤ 28) : (pad28 bs).length = 28 := by
  unfold pad28
  simp
  omega

theorem pad28_of_le (bs : List Nat) (h : bs.length ≤ 28) :
    pad28 bs = bs ++ List.replicate (28 - bs.length) 0 := by
  unfold pad28
  rw [List.take_of_length_le h]

/-! ### The `FXPBinaryData` variant (panflute_test.py)

`load` reads a 60-byte header, prints the parsed header (which decodes three
text fields and can therefore fail), and splits the remaining content by
scanning for the literal markers `<?xml` and `</patch>`. `save` /
`_write_to_file` concatenates the stored regions back. -/

/-- Bytes of the literal marker `b"<?xml"`. -/
def xmlStartMarker : List Nat := [60, 63, 120, 109, 108]

/-- Bytes of the literal marker `b"</patch>"`. -/
def patchEndMarker : List Nat := [60, 47, 112, 97, 116, 99, 104, 62]

/-- Python `str.rstrip("\x00")`: removes trailing NUL characters. -/
def stringRstripNul (s : String) : String :=
  ⟨(s.data.reverse.dropWhile (fun c => c == '\x00')).reverse⟩

/-- Result of `FXPBinaryData.parse_header`: the dict of decoded fields. -/
structure ParsedHeader where
  signature : String
  version : Int
  ftype : String
  subVersion : Int
  timestamp : Int
  numRecords : Int
  recordSize : Int
  payload : String
  checksum : Int
deriving DecidableEq, Repr

/-- Model of `FXPBinaryData.parse_header`: `struct.unpack(">4s i 4s i i i i
28s i", fxp_header)` followed by text decoding of the two magic tags and
the NUL-stripped payload name. Decoding failures (invalid UTF-8) raise,
modelled by `none`. -/
def parse_header (bs : List Nat) : Option ParsedHeader :=
  if bs.length = 60 then do
    let sig ← utf8DecodeStr (pySlice bs 0 4)
    let ftype ← utf8DecodeStr (pySlice bs 8 12)
    let payload ← utf8DecodeStr (pySlice bs 28 56)
    some
      { signature := sig
        version := toSigned32 (pySlice bs 4 8)
        ftype := ftype
        subVersion := toSigned32 (pySlice bs 12 16)
        timestamp := toSigned32 (pySlice bs 16 20)
        numRecords := toSigned32 (pySlice bs 20 24)
        recordSize := toSigned32 (pySlice bs 24 28)
        payload := stringRstripNul payload
        checksum := toSigned32 (pySlice bs 56 60) }
  else none

/-- The in-memory document of `panflute_test.py`: header bytes plus the
four byte regions and the wavetable blobs. -/
structure FXPBinaryData where
  prgName : String
  chunkSize : Int
  fxp_header : List Nat
  non_xml_data_before : List Nat
  xml_content : List Nat
  non_xml_data_after : List Nat
  wavetables : List (List Nat)
deriving DecidableEq, Repr

/-- Marker-scanned content split from `FXPBinaryData.load` lines 63-67:
`start = content.find(b"<?xml")`, `end = content.find(b"</patch>") +
len(b"</patch>")`, then the three guarded slices. -/
def splitContent (content : List Nat) : List Nat × List Nat × List Nat :=
  let start_ : Int := pyFind xmlStartMarker content
  let end_ : Int := pyFind patchEndMarker content + 8
  let before := if start_ ≠ -1 then content.take start_.toNat else []
  let xml :=
    if start_ ≠ -1 ∧ end_ ≠ -1 then (content.take end_.toNat).drop start_.toNat else []
  let after := if end_ ≠ -1 then content.drop end_.toNat else []
  (before, xml, after)

/-- Model of `FXPBinaryData.load`: read 60 header bytes (assert they are
there), parse and print the header, split the rest by markers, and build
the document with `prgName=""`, `chunkSize=0` and no wavetables. -/
def FXPBinaryData.load (file : List Nat) : Option FXPBinaryData :=
  if file.length < 60 then none
  else
    match parse_header (file.take 60) with
    | none => none
    | some _ =>
      let content := file.drop 60
      let parts := splitContent content
      some
        { prgName := ""
          chunkSize := 0
          fxp_header := file.take 60
          non_xml_data_before := parts.1
          xml_content := parts.2.1
          non_xml_data_after := parts.2.2
          wavetables := [] }

/-- Model of `FXPBinaryData._write_to_file`: the sequence of `f.write`
calls, each appending its chunk to the file state. -/
def FXPBinaryData.writeToFile (bd : FXPBinaryData) (f : List Nat) : List Nat :=
  let f1 := f ++ bd.fxp_header
  let f2 := f1 ++ bd.non_xml_data_before
  let f3 := f2 ++ bd.xml_content
  let f4 := f3 ++ bd.non_xml_data_after
  bd.wavetables.foldl (fun acc wt => acc ++ wt) f4

/-- Model of `FXPBinaryData.save` to a fresh file. -/
def FXPBinaryData.save (bd : FXPBinaryData) : List Nat :=
  bd.writeToFile []

theorem foldl_append_flatten (ws : List (List Nat)) (a : List Nat) :
    ws.foldl (fun acc wt => acc ++ wt) a = a ++ ws.flatten := by
  induction ws generalizing a with
  | nil => simp
  | cons w ws ih =>
    simp only [List.foldl_cons, List.flatten_cons, ih, List.append_assoc]

theorem splitContent_wellFormed (content A B T : List Nat)
    (hsplit : content = A ++ xmlStartMarker ++ B ++ patchEndMarker ++ T)
    (hstart : findSub xmlStartMarker content = some A.length)
    (hend : findSub patchEndMarker content = some (A.length + 5 + B.length)) :
    splitContent content = (A, xmlStartMarker ++ B ++ patchEndMarker, T) := by
  have h1 : pyFind xmlStartMarker content = (A.length : Int) := by
    unfold pyFind
    rw [hstart]
  have h2 : pyFind patchEndMarker content = ((A.length + 5 + B.length : Nat) : Int) := by
    unfold pyFind
    rw [hend]
  have hsplit' : content = (A ++ (xmlStartMarker ++ B ++ patchEndMarker)) ++ T := by
    rw [hsplit]
    simp [List.append_assoc]
  have hlenA : xmlStartMarker.length = 5 := rfl
  have hlenP : patchEndMarker.length = 8 := rfl
  have hlenX : (xmlStartMarker ++ B ++ patchEndMarker).length = 13 + B.length := by
    simp only [List.length_append, hlenA, hlenP]
    omega
  have hcast : ((A.length + 5 + B.length : Nat) : Int) + 8 =
      ((A.length + 13 + B.length : Nat) : Int) := by
    push_cast
    ring
  simp only [splitContent, h1, h2, hcast]
  rw [if_pos (by omega : (A.length : Int) ≠ -1),
    if_pos ⟨by omega, by omega⟩,
    if_pos (by omega : ((A.length + 13 + B.length : Nat) : Int) ≠ -1)]
  simp only [Int.toNat_natCast]
  have hbefore : content.take A.length = A := by
    rw [hsplit]
    simp only [List.append_assoc]
    exact List.take_left' rfl
  have htake : content.take (A.length + 13 + B.length) =
      A ++ (xmlStartMarker ++ B ++ patchEndMarker) := by
    rw [hsplit']
    refine List.take_left' ?_
    simp only [List.length_append, hlenX]
    omega
  have hxml : (content.take (A.length + 13 + B.length)).drop A.length =
      xmlStartMarker ++ B ++ patchEndMarker := by
    rw [htake]
    exact List.drop_left' rfl
  have hafter : content.drop (A.length + 13 + B.length) = T := by
    rw [hsplit']
    refine List.drop_left' ?_
    simp only [List.length_append, hlenX]
    omega
  rw [hbefore, hxml, hafter]

theorem load_eq (file : List Nat) (bd : FXPBinaryData)
    (hload : FXPBinaryData.load file = some bd) :
    ¬ file.length < 60 ∧
      bd = { prgName := ""
             chunkSize := 0
             fxp_header := file.take 60
             non_xml_data_before := (splitContent (file.drop 60)).1
             xml_content := (splitContent (file.drop 60)).2.1
             non_xml_data_after := (splitContent (file.drop 60)).2.2
             wavetables := [] } := by
  unfold FXPBinaryData.load at hload
  split at hload
  · cases hload
  next hlen =>
    split at hload
    · cases hload
    · injection hload with h
      exact ⟨hlen, h.symm⟩

/-- C1: for every well-formed input file accepted by `load` — one whose
post-header content is `A ++ "<?xml" ++ B ++ "</patch>" ++ T` with the two
markers located at the positions `bytes.find` reports — saving the loaded
document reproduces the input byte-for-byte, including the 60-byte header,
the XML payload, and all trailing bytes. -/
theorem claim1_save_load_roundtrip (file A B T : List Nat) (bd : FXPBinaryData)
    (hsplit : file.drop 60 = A ++ xmlStartMarker ++ B ++ patchEndMarker ++ T)
    (hstart : findSub xmlStartMarker (file.drop 60) = some A.length)
    (hend : findSub patchEndMarker (file.drop 60) = some (A.length + 5 + B.length))
    (hload : FXPBinaryData.load file = some bd) :
    bd.save = file := by
  obtain ⟨hlen, hbd⟩ := load_eq file bd hload
  subst hbd
  have hsc := splitContent_wellFormed (file.drop 60) A B T hsplit hstart hend
  unfold FXPBinaryData.save FXPBinaryData.writeToFile
  rw [foldl_append_flatten]
  simp only [hsc]
  conv_rhs => rw [← List.take_append_drop 60 file]
  rw [hsplit]
  simp [List.append_assoc]

/-- C1 witness: a concrete well-formed file (60 NUL header bytes followed
directly by `<?xml</patch>`) round-trips. -/
theorem claim1_witness :
    FXPBinaryData.save
      { prgName := ""
        chunkSize := 0
        fxp_header := List.replicate 60 0
        non_xml_data_before := []
        xml_content := xmlStartMarker ++ patchEndMarker
        non_xml_data_after := []
        wavetables := [] } =
      List.replicate 60 0 ++ (xmlStartMarker ++ patchEndMarker) :=
  claim1_save_load_roundtrip (List.replicate 60 0 ++ (xmlStartMarker ++ patchEndMarker))
    [] [] [] _ (by decide) (by decide) (by decide) (by decide)

/-- C2: `save` / `_write_to_file` emits exactly the stored header bytes,
then the pre-XML bytes, the XML payload verbatim, the post-XML bytes, and
every wavetable blob in original order — a pure concatenation with no
transformation of any region. -/
theorem claim2_serialize_concat (bd : FXPBinaryData) :
    bd.save = bd.fxp_header ++ bd.non_xml_data_before ++ bd.xml_content ++
      bd.non_xml_data_after ++ bd.wavetables.flatten := by
  unfold FXPBinaryData.save FXPBinaryData.writeToFile
  rw [foldl_append_flatten]
  simp [List.append_assoc]

/-- C3 counterexample: the post-header content
`"</patch>" ++ "<?xml" ++ "</patch>"` has the form `A ++ "<?xml" ++ B ++
"</patch>" ++ TRAILER` with `A = "</patch>"`, `B = TRAILER = empty`, where
`"<?xml"` is the first occurrence of that marker (at index 8) and the
closing `"</patch>"` is the first occurrence after it; yet the code takes
the globally first `"</patch>"` (at index 0), so the end offset is 8 and
the extracted `xmlPayload` is empty instead of
`"<?xml</patch>"`, and the trailing region is `"<?xml</patch>"` instead of
the empty TRAILER. -/
theorem claim3_counterexample :
    findSub xmlStartMarker (patchEndMarker ++ xmlStartMarker ++ patchEndMarker) =
        some patchEndMarker.length ∧
      findSub patchEndMarker
          ((patchEndMarker ++ xmlStartMarker ++ patchEndMarker).drop patchEndMarker.length) =
        some xmlStartMarker.length ∧
      (splitContent (patchEndMarker ++ xmlStartMarker ++ patchEndMarker)).2.1 ≠
        xmlStartMarker ++ patchEndMarker ∧
      (splitContent (patchEndMarker ++ xmlStartMarker ++ patchEndMarker)).2.2 ≠ [] := by
  decide

/-- C3 (amended): the claim holds with the extra requirement — forced by
the counterexample — that the closing `"</patch>"` is also the globally
first occurrence of that marker in the post-header content (the code
searches for it from the beginning, not from the `"<?xml"` position): then
marker-scanned splitting yields `preXml = A`, the payload from the start of
`"<?xml"` through the final byte of `"</patch>"`, and the trailing region
`TRAILER` exactly; in particular `preXml` is empty when `A` is empty. -/
theorem claim3_amended (content A B T : List Nat)
    (hsplit : content = A ++ xmlStartMarker ++ B ++ patchEndMarker ++ T)
    (hstart : findSub xmlStartMarker content = some A.length)
    (hend : findSub patchEndMarker content = some (A.length + 5 + B.length)) :
    splitContent content = (A, xmlStartMarker ++ B ++ patchEndMarker, T) :=
  splitContent_wellFormed content A B T hsplit hstart hend

/-- C3 witness: a concrete split with `A = empty`, `B = [66]`,
`TRAILER = [9]`. -/
theorem claim3_witness :
    splitContent ([] ++ xmlStartMarker ++ [66] ++ patchEndMarker ++ [9]) =
      ([], xmlStartMarker ++ [66] ++ patchEndMarker, [9]) :=
  claim3_amended ([] ++ xmlStartMarker ++ [66] ++ patchEndMarker ++ [9]) [] [66] [9]
    rfl (by decide) (by decide)

/-- C9 counterexample: for the file whose post-header content is
`"<?xmlAB"` (which contains no `"</patch>"`), `load` indeed sets
`non_xml_data_after = content[7:] = empty`, but `xml_content` is the whole
7-byte content `content[0:7]`, not empty as the claim states, because
`"<?xml"` was found at index 0 and the slice `content[start:7]` is
nonempty. -/
theorem claim9_counterexample :
    findSub patchEndMarker ((List.replicate 60 0 ++ (xmlStartMarker ++ [65, 66])).drop 60) =
        none ∧
      (FXPBinaryData.load (List.replicate 60 0 ++ (xmlStartMarker ++ [65, 66]))).map
          FXPBinaryData.xml_content =
        some (xmlStartMarker ++ [65, 66]) ∧
      xmlStartMarker ++ [65, 66] ≠ ([] : List Nat) := by
  decide

/-- C9 (amended): when the post-header content contains no `"</patch>"`,
the end offset is `-1 + 8 = 7`, so `non_xml_data_after = content[7:]` and
`xml_content = content[start:7]` when `"<?xml"` is found at `start` (empty
exactly when `start ≥ 7`, and empty when `"<?xml"` is absent); when
additionally `"<?xml"` is absent, `non_xml_data_before` is empty and — for
nonempty content — the stored regions do not partition the content: the
first `min 7 (length content)` bytes belong to no region. -/
theorem claim9_amended (file : List Nat) (bd : FXPBinaryData)
    (hload : FXPBinaryData.load file = some bd)
    (hnoend : findSub patchEndMarker (file.drop 60) = none) :
    bd.non_xml_data_after = (file.drop 60).drop 7 ∧
      bd.xml_content =
        (match findSub xmlStartMarker (file.drop 60) with
          | some s => ((file.drop 60).take 7).drop s
          | none => []) ∧
      (findSub xmlStartMarker (file.drop 60) = none →
        bd.non_xml_data_before = [] ∧ bd.xml_content = [] ∧
          (file.drop 60 ≠ [] →
            bd.non_xml_data_before ++ bd.xml_content ++ bd.non_xml_data_after ≠
              file.drop 60)) := by
  obtain ⟨hlen, hbd⟩ := load_eq file bd hload
  subst hbd
  have hpe : pyFind patchEndMarker (file.drop 60) = -1 := by
    unfold pyFind
    rw [hnoend]
  have h7 : (-1 : Int) + 8 = 7 := by decide
  cases hfs : findSub xmlStartMarker (file.drop 60) with
  | some s =>
    have hxs : pyFind xmlStartMarker (file.drop 60) = (s : Int) := by
      unfold pyFind
      rw [hfs]
    simp only [splitContent, hpe, hxs, h7]
    rw [if_pos (⟨by omega, by decide⟩ : ((s : Int) ≠ -1) ∧ ((7 : Int) ≠ -1))]
    simp only [Int.toNat_natCast, Int.toNat_ofNat]
    refine ⟨rfl, rfl, ?_⟩
    intro habs
    cases habs
  | none =>
    have hxs : pyFind xmlStartMarker (file.drop 60) = -1 := by
      unfold pyFind
      rw [hfs]
    simp only [splitContent, hpe, hxs, h7]
    refine ⟨rfl, rfl, fun _ => ⟨rfl, rfl, fun hne => ?_⟩⟩
    intro heq
    have hpos : 0 < (file.drop 60).length := List.length_pos.mpr hne
    have hlen2 := congrArg List.length heq
    simp at hlen2 hpos
    omega

/-- C9 witness: the file of 60 NUL bytes followed by a single byte `65`
has neither marker in its content; the loaded document has empty regions
and fails to partition the 1-byte content. -/
theorem claim9_witness :
    (FXPBinaryData.mk "" 0 (List.replicate 60 0) [] [] [] []).non_xml_data_after =
        ((List.replicate 60 0 ++ [65]).drop 60).drop 7 ∧
      (FXPBinaryData.mk "" 0 (List.replicate 60 0) [] [] [] []).xml_content =
        (match findSub xmlStartMarker ((List.replicate 60 0 ++ [65]).drop 60) with
          | some s => (((List.replicate 60 0 ++ [65]).drop 60).take 7).drop s
          | none => []) ∧
      (findSub xmlStartMarker ((List.replicate 60 0 ++ [65]).drop 60) = none →
        (FXPBinaryData.mk "" 0 (List.replicate 60 0) [] [] [] []).non_xml_data_before = [] ∧
          (FXPBinaryData.mk "" 0 (List.replicate 60 0) [] [] [] []).xml_content = [] ∧
          ((List.replicate 60 0 ++ [65]).drop 60 ≠ [] →
            (FXPBinaryData.mk "" 0 (List.replicate 60 0) [] [] [] []).non_xml_data_before ++
                (FXPBinaryData.mk "" 0 (List.replicate 60 0) [] [] [] []).xml_content ++
                (FXPBinaryData.mk "" 0 (List.replicate 60 0) [] [] [] []).non_xml_data_after ≠
              (List.replicate 60 0 ++ [65]).drop 60)) :=
  claim9_amended (List.replicate 60 0 ++ [65])
    (FXPBinaryData.mk "" 0 (List.replicate 60 0) [] [] [] []) (by decide) (by decide)

/-! ### The `FXP` variant (tuba_test_xml.py)

The constructor asserts that `prgName` encodes to at most 28 UTF-8 bytes.
`save` packs the header with `struct.pack(">4si4siiii28si", b"CcnK", 0,
b"FPCh", version, fxId, fxVersion, numPrograms, prgName.encode("utf-8"),
len(xml))`, asserts the header is 60 bytes, and writes header, XML bytes
verbatim, and the joined wavetables. `load` unpacks the header, reads
`chunkSize` bytes of XML and the remainder as one wavetable blob, strips
NUL bytes from both ends of the name field and decodes it as UTF-8. -/

/-- Bytes of the tag `b"CcnK"`. -/
def ccnkMagic : List Nat := [67, 99, 110, 75]

/-- Bytes of the tag `b"FPCh"`. -/
def fpchMagic : List Nat := [70, 80, 67, 104]

/-- The in-memory object of `tuba_test_xml.py`. -/
structure FXP where
  version : Int
  fxId : Int
  fxVersion : Int
  numPrograms : Int
  prgName : String
  chunkSize : Int
  xmlContent : List Nat
  wavetables : List (List Nat)
deriving DecidableEq, Repr

/-- Model of the `@typechecked` constructor `FXP.__init__` with its
`assert len(prgName.encode("utf-8")) <= 28`. -/
def mkFXP (version fxId fxVersion numPrograms : Int) (prgName : String)
    (chunkSize : Int) (xmlContent : List Nat) (wavetables : List (List Nat)) :
    Except PyError FXP :=
  if (utf8EncodeString prgName).length ≤ 28 then
    .ok ⟨version, fxId, fxVersion, numPrograms, prgName, chunkSize, xmlContent, wavetables⟩
  else .error .formatError

/-- Model of `struct.pack(">4si4siiii28si", b"CcnK", 0, b"FPCh", version,
fxId, fxVersion, numPrograms, nameBytes, chunkVal)`: raises `struct.error`
when an integer argument is out of the signed 32-bit range, otherwise
concatenates the big-endian fields with the name truncated or NUL-padded
to 28 bytes. -/
def packHeaderT (version fxId fxVersion numPrograms : Int) (nameBytes : List Nat)
    (chunkVal : Int) : Except PyError (List Nat) :=
  if int32InRange 0 ∧ int32InRange version ∧ int32InRange fxId ∧ int32InRange fxVersion ∧
      int32InRange numPrograms ∧ int32InRange chunkVal then
    .ok (ccnkMagic ++ int32beBytes 0 ++ fpchMagic ++ int32beBytes version ++
      int32beBytes fxId ++ int32beBytes fxVersion ++ int32beBytes numPrograms ++
      pad28 nameBytes ++ int32beBytes chunkVal)
  else .error .structError

/-- Model of `FXP.save`: pack the header, assert it is 60 bytes, and write
the header, the XML content verbatim, and `b"".join(wavetables)`. -/
def FXP.save (fxp : FXP) : Except PyError (List Nat) :=
  (packHeaderT fxp.version fxp.fxId fxp.fxVersion fxp.numPrograms
      (utf8EncodeString fxp.prgName) ((fxp.xmlContent.length : Int))).bind
    (fun fxp_header =>
      if fxp_header.length = 60 then
        .ok (fxp_header ++ fxp.xmlContent ++ fxp.wavetables.flatten)
      else .error .formatError)

/-- Model of `FXP.load`: assert a 60-byte header is available, unpack it,
read `chunkSize` bytes of XML (all remaining bytes when `chunkSize` is
negative, as Python's `f.read` does) and the rest as a single wavetable
blob, assert the NUL-stripped name is at most 28 bytes, decode it as
UTF-8, and build the `FXP` through the checked constructor. -/
def FXP.load (file : List Nat) : Except PyError FXP :=
  if file.length < 60 then .error .formatError
  else
    let hdr := file.take 60
    let rest := file.drop 60
    let version := toSigned32 (pySlice hdr 12 16)
    let fxId := toSigned32 (pySlice hdr 16 20)
    let fxVersion := toSigned32 (pySlice hdr 20 24)
    let numPrograms := toSigned32 (pySlice hdr 24 28)
    let prgNameBytes := pySlice hdr 28 56
    let chunkSize := toSigned32 (pySlice hdr 56 60)
    let xml_content := if chunkSize < 0 then rest else rest.take chunkSize.toNat
    let wavetable := if chunkSize < 0 then [] else rest.drop chunkSize.toNat
    if (stripNul prgNameBytes).length ≤ 28 then
      match utf8DecodeStr (stripNul prgNameBytes) with
      | some name =>
        mkFXP version fxId fxVersion numPrograms name chunkSize xml_content [wavetable]
      | none => .error .decodeError
    else .error .formatError

/-- Model of constructing an `FXP` from raw field values and saving it:
the only path by which `pack`/`save` is reachable in the source. -/
def packProgram (version fxId fxVersion numPrograms : Int) (prgName : String)
    (chunkSize : Int) (xmlContent : List Nat) (wavetables : List (List Nat)) :
    Except PyError (List Nat) :=
  (mkFXP version fxId fxVersion numPrograms prgName chunkSize xmlContent wavetables).bind
    FXP.save

theorem except_bind_ok {α β : Type} (a : α) (f : α → Except PyError β) :
    (Except.ok a).bind f = f a := rfl

theorem int32beBytes_length (v : Int) : (int32beBytes v).length = 4 := rfl

/-- C4: a `prgName` whose UTF-8 encoding exceeds 28 bytes makes
`pack`/`save` fail with the format error raised by the constructor's
assert, and no output bytes are produced (the result carries no partial
file). -/
theorem claim4_name_too_long_fails (version fxId fxVersion numPrograms : Int)
    (prgName : String) (chunkSize : Int) (xmlContent : List Nat)
    (wavetables : List (List Nat))
    (h : 28 < (utf8EncodeString prgName).length) :
    packProgram version fxId fxVersion numPrograms prgName chunkSize xmlContent wavetables =
      .error .formatError := by
  unfold packProgram mkFXP
  rw [if_neg (by omega)]
  rfl

/-- C4 witness: a 29-byte name fails with `formatError`. -/
theorem claim4_witness :
    28 < (utf8EncodeString "aaaaaaaaaaaaaaaaaaaaaaaaaaaaa").length ∧
      packProgram 1 2 3 4 "aaaaaaaaaaaaaaaaaaaaaaaaaaaaa" 0 [1, 2] [[3]] =
        .error .formatError :=
  ⟨by decide, claim4_name_too_long_fails 1 2 3 4 "aaaaaaaaaaaaaaaaaaaaaaaaaaaaa" 0 [1, 2] [[3]]
    (by decide)⟩

/-- C5 counterexample: the name `"a\x00"` encodes to 2 bytes (≤ 28), but
pack followed by unpack yields `"a"`: `bytes.strip(b"\x00")` removes the
name's own trailing NUL byte along with the padding, so the decoded string
differs from the original name. -/
theorem claim5_counterexample :
    (utf8EncodeString "a\x00").length ≤ 28 ∧
      ((packProgram 0 0 0 0 "a\x00" 0 [] []).toOption.bind
          (fun out => (FXP.load out).toOption)).map FXP.prgName = some "a" ∧
      "a" ≠ "a\x00" := by
  decide

/-- C5 (amended): for every `prgName` whose UTF-8 encoding is at most 28
bytes and neither begins nor ends with a NUL byte (equivalently, the name
has no leading or trailing NUL characters — the case the counterexample
excludes), pack followed by unpack recovers the name exactly: the encoding
is NUL-padded to 28 bytes on pack, and on unpack the strip removes exactly
the padding before UTF-8 decoding. The integer fields must be in the
signed 32-bit range for `struct.pack` to succeed. -/
theorem claim5_amended (version fxId fxVersion numPrograms : Int) (prgName : String)
    (chunkSize : Int) (xmlContent : List Nat) (wavetables : List (List Nat))
    (h28 : (utf8EncodeString prgName).length ≤ 28)
    (hhead : (utf8EncodeString prgName).head? ≠ some 0)
    (hlast : (utf8EncodeString prgName).getLast? ≠ some 0)
    (hvr : int32InRange version) (hir : int32InRange fxId) (hfr : int32InRange fxVersion)
    (hnr : int32InRange numPrograms) (hxr : int32InRange ((xmlContent.length : Int))) :
    ∃ out fxp,
      packProgram version fxId fxVersion numPrograms prgName chunkSize xmlContent wavetables =
          .ok out ∧
        FXP.load out = .ok fxp ∧ fxp.prgName = prgName := by
  have hmagic1 : ccnkMagic.length = 4 := rfl
  have hmagic2 : fpchMagic.length = 4 := rfl
  have hpadlen : (pad28 (utf8EncodeString prgName)).length = 28 :=
    pad28_length (utf8EncodeString prgName) h28
  have hpre7 : (ccnkMagic ++ int32beBytes 0 ++ fpchMagic ++ int32beBytes version ++
      int32beBytes fxId ++ int32beBytes fxVersion ++ int32beBytes numPrograms).length = 28 := by
    simp only [List.length_append, int32beBytes_length, hmagic1, hmagic2]
  have hhdrlen : (ccnkMagic ++ int32beBytes 0 ++ fpchMagic ++ int32beBytes version ++
      int32beBytes fxId ++ int32beBytes fxVersion ++ int32beBytes numPrograms ++
      pad28 (utf8EncodeString prgName) ++ int32beBytes ((xmlContent.length : Int))).length = 60 := by
    simp only [List.length_append, int32beBytes_length, hmagic1, hmagic2, hpadlen]
  have hph : packHeaderT version fxId fxVersion numPrograms (utf8EncodeString prgName)
      ((xmlContent.length : Int)) =
      .ok (ccnkMagic ++ int32beBytes 0 ++ fpchMagic ++ int32beBytes version ++
        int32beBytes fxId ++ int32beBytes fxVersion ++ int32beBytes numPrograms ++
        pad28 (utf8EncodeString prgName) ++ int32beBytes ((xmlContent.length : Int))) := by
    unfold packHeaderT
    rw [if_pos ⟨by decide, hvr, hir, hfr, hnr, hxr⟩]
  have hsave : packProgram version fxId fxVersion numPrograms prgName chunkSize xmlContent
      wavetables =
      .ok ((ccnkMagic ++ int32beBytes 0 ++ fpchMagic ++ int32beBytes version ++
        int32beBytes fxId ++ int32beBytes fxVersion ++ int32beBytes numPrograms ++
        pad28 (utf8EncodeString prgName) ++ int32beBytes ((xmlContent.length : Int))) ++
        xmlContent ++ wavetables.flatten) := by
    unfold packProgram mkFXP
    rw [if_pos h28, except_bind_ok]
    simp only [FXP.save, hph, except_bind_ok]
    rw [if_pos hhdrlen]
  have htake : ((ccnkMagic ++ int32beBytes 0 ++ fpchMagic ++ int32beBytes version ++
      int32beBytes fxId ++ int32beBytes fxVersion ++ int32beBytes numPrograms ++
      pad28 (utf8EncodeString prgName) ++ int32beBytes ((xmlContent.length : Int))) ++
      xmlContent ++ wavetables.flatten).take 60 =
      ccnkMagic ++ int32beBytes 0 ++ fpchMagic ++ int32beBytes version ++
        int32beBytes fxId ++ int32beBytes fxVersion ++ int32beBytes numPrograms ++
        pad28 (utf8EncodeString prgName) ++ int32beBytes ((xmlContent.length : Int)) := by
    rw [List.append_assoc]
    exact List.take_left' hhdrlen
  have hslice : pySlice (ccnkMagic ++ int32beBytes 0 ++ fpchMagic ++ int32beBytes version ++
      int32beBytes fxId ++ int32beBytes fxVersion ++ int32beBytes numPrograms ++
      pad28 (utf8EncodeString prgName) ++ int32beBytes ((xmlContent.length : Int))) 28 56 =
      pad28 (utf8EncodeString prgName) := by
    unfold pySlice
    rw [List.take_left' (by
      simp only [List.length_append, int32beBytes_length, hmagic1, hmagic2, hpadlen])]
    exact List.drop_left' hpre7
  have hstrip : stripNul (pad28 (utf8EncodeString prgName)) = utf8EncodeString prgName := by
    rw [pad28_of_le (utf8EncodeString prgName) h28]
    exact stripNul_pad (utf8EncodeString prgName) _ hhead hlast
  have hlen60 : ¬ ((ccnkMagic ++ int32beBytes 0 ++ fpchMagic ++ int32beBytes version ++
      int32beBytes fxId ++ int32beBytes fxVersion ++ int32beBytes numPrograms ++
      pad28 (utf8EncodeString prgName) ++ int32beBytes ((xmlContent.length : Int))) ++
      xmlContent ++ wavetables.flatten).length < 60 := by
    simp only [List.length_append, hhdrlen]
    omega
  refine ⟨(ccnkMagic ++ int32beBytes 0 ++ fpchMagic ++ int32beBytes version ++
      int32beBytes fxId ++ int32beBytes fxVersion ++ int32beBytes numPrograms ++
      pad28 (utf8EncodeString prgName) ++ int32beBytes ((xmlContent.length : Int))) ++
      xmlContent ++ wavetables.flatten, ?_⟩
  simp only [FXP.load, hsave]
  rw [if_neg hlen60]
  rw [htake, hslice, hstrip]
  rw [if_pos h28]
  simp only [utf8DecodeStr_encodeString, mkFXP, if_pos h28]
  exact ⟨_, trivial, rfl, rfl⟩

/-- C5 witness: the name `"Lead1"` (5 bytes, no NUL at either end) is
recovered exactly by pack followed by unpack. -/
theorem claim5_witness :
    ∃ out fxp,
      packProgram 0 0 0 0 "Lead1" 0 [1] [[2]] = .ok out ∧
        FXP.load out = .ok fxp ∧ fxp.prgName = "Lead1" :=
  claim5_amended 0 0 0 0 "Lead1" 0 [1] [[2]] (by decide) (by decide) (by decide)
    (by decide) (by decide) (by decide) (by decide) (by decide)

/-! ### The XML attribute tree and `FXPHumanReadable` (panflute_test.py)

The XML parser (`pytinyxml2`) is the external capability of the spec: it
turns the payload bytes into an element tree navigated by
`FirstChildElement` / `NextSiblingElement` / `Attribute` / `Value`. The
tree is modelled directly; `FirstChildElement(name)` returns the first
child element with the given tag or `None`, `Attribute(k)` the attribute
value or `None`. Calling a method on a `None` result raises
`AttributeError`. -/

/-- An XML element: tag name, attributes in document order, child
elements in document order. -/
inductive XmlElem : Type where
  | elem (tag : String) (attrs : List (String × String)) (children : List XmlElem)

/-- Tag name of an element (`Value()` in tinyxml2). -/
def XmlElem.tag : XmlElem → String
  | .elem t _ _ => t

/-- Attribute list of an element. -/
def XmlElem.attrs : XmlElem → List (String × String)
  | .elem _ a _ => a

/-- Child elements of an element. -/
def XmlElem.children : XmlElem → List XmlElem
  | .elem _ _ c => c

/-- Model of tinyxml2 `Attribute(k)`: first matching attribute value, or
`None` when absent. -/
def XmlElem.attribute (e : XmlElem) (k : String) : Option String :=
  (e.attrs.find? (fun p => p.1 == k)).map (fun p => p.2)

/-- Model of `FirstChildElement(n)` on a node with the given children. -/
def firstChildElementNamed (cs : List XmlElem) (n : String) : Option XmlElem :=
  cs.find? (fun e => e.tag == n)

/-- The `meta` sub-dictionary built by `FXPHumanReadable.from_xml`. -/
structure MetaData where
  name : Option String
  category : Option String
  comment : Option String
  author : Option String
deriving DecidableEq, Repr

/-- One entry of the parameters dictionary: the `type` and `value`
attributes, kept verbatim (or `None` when absent, as `Attribute` returns). -/
structure ParamEntry where
  type : Option String
  value : Option String
deriving DecidableEq, Repr

/-- The `extracted_data` dictionary: the optional `meta` key and the
insertion-ordered `parameters` mapping. -/
structure ExtractedData where
  meta : Option MetaData
  parameters : List (String × ParamEntry)
deriving DecidableEq, Repr

/-- The human-readable view: extracted XML data plus wavetable blobs. -/
structure FXPHumanReadable where
  extracted_xml_data : ExtractedData
  wavetables : List (List Nat)
deriving DecidableEq, Repr

/-- Python dict assignment `d[k] = v`: overwrite in place when the key
exists (keeping its original position), append otherwise. -/
def dictInsert (k : String) (v : ParamEntry) : List (String × ParamEntry) →
    List (String × ParamEntry)
  | [] => [(k, v)]
  | p :: rest => if p.1 = k then (k, v) :: rest else p :: dictInsert k v rest

/-- The `while param is not None` loop of `from_xml`: walk the sibling
elements in document order, inserting each tag with its `type`/`value`
attributes into the parameters dictionary. -/
def collectParams : List XmlElem → List (String × ParamEntry) → List (String × ParamEntry)
  | [], acc => acc
  | e :: rest, acc =>
    collectParams rest (dictInsert e.tag ⟨e.attribute "type", e.attribute "value"⟩ acc)

/-- Model of `FXPHumanReadable.from_xml`. The input is the parsed
document's element list (the external parser's output; a failed parse has
no `patch` root). `FirstChildElement("patch")` returning `None` makes the
subsequent `.FirstChildElement("meta")` call raise `AttributeError`; a
present `meta` is guarded by `if meta is not None`, but `parameters` is
not: when it is `None`, `parameters.FirstChildElement()` raises
`AttributeError`. -/
def FXPHumanReadable.from_xml (doc : List XmlElem) (wavetables : List (List Nat)) :
    Except PyError FXPHumanReadable :=
  match firstChildElementNamed doc "patch" with
  | none => .error .attributeError
  | some patch =>
    let metaVal : Option MetaData :=
      (firstChildElementNamed patch.children "meta").map (fun m =>
        { name := m.attribute "name"
          category := m.attribute "category"
          comment := m.attribute "comment"
          author := m.attribute "author" })
    match firstChildElementNamed patch.children "parameters" with
    | none => .error .attributeError
    | some ps =>
      .ok { extracted_xml_data :=
              { meta := metaVal, parameters := collectParams ps.children [] }
            wavetables := wavetables }

/-- C6 counterexample: for the parseable payload `<patch/>` (a `patch`
root with neither `meta` nor `parameters` child), extraction raises
`AttributeError` — `parameters` is `None` and the code calls
`parameters.FirstChildElement()` unguarded — instead of returning an empty
parameters mapping as the claim states. -/
theorem claim6_counterexample :
    FXPHumanReadable.from_xml [XmlElem.elem "patch" [] []] [] =
      .error .attributeError := rfl

theorem dictInsert_of_notMem (k : String) (v : ParamEntry)
    (acc : List (String × ParamEntry)) (h : k ∉ acc.map Prod.fst) :
    dictInsert k v acc = acc ++ [(k, v)] := by
  induction acc with
  | nil => rfl
  | cons p rest ih =>
    simp only [List.map_cons, List.mem_cons] at h
    push_neg at h
    unfold dictInsert
    rw [if_neg (fun he => h.1 he.symm), ih h.2]
    rfl

theorem collectParams_append (cs : List XmlElem) (acc : List (String × ParamEntry))
    (h : (acc.map Prod.fst ++ cs.map XmlElem.tag).Nodup) :
    collectParams cs acc =
      acc ++ cs.map (fun e => (e.tag, ⟨e.attribute "type", e.attribute "value"⟩)) := by
  induction cs generalizing acc with
  | nil => simp [collectParams]
  | cons e rest ih =>
    unfold collectParams
    have hkey : e.tag ∉ acc.map Prod.fst := by
      intro hmem
      rw [List.nodup_append] at h
      exact h.2.2 hmem (by simp)
    rw [dictInsert_of_notMem e.tag _ acc hkey]
    have hnodup' : ((acc ++ [(e.tag, ({ type := e.attribute "type", value := e.attribute "value" } : ParamEntry))]).map Prod.fst ++ rest.map XmlElem.tag).Nodup := by
      simp only [List.map_append, List.map_cons, List.map_nil, List.append_assoc,
        List.singleton_append] at h ⊢
      exact h
    rw [ih _ hnodup']
    simp [List.append_assoc]

/-- C6 (amended): if the `patch` root is present and `patch/parameters`
exists, a missing `patch/meta` yields a result with no `meta` entry and no
error; but — contrary to the claim, as the counterexample forces — a
missing `patch/parameters` element makes extraction fail with
`AttributeError` rather than yield an empty parameters mapping. -/
theorem claim6_amended :
    (∀ (doc : List XmlElem) (wts : List (List Nat)) (patch ps : XmlElem),
        firstChildElementNamed doc "patch" = some patch →
        firstChildElementNamed patch.children "meta" = none →
        firstChildElementNamed patch.children "parameters" = some ps →
        ∃ r, FXPHumanReadable.from_xml doc wts = .ok r ∧
          r.extracted_xml_data.meta = none) ∧
      (∀ (doc : List XmlElem) (wts : List (List Nat)) (patch : XmlElem),
        firstChildElementNamed doc "patch" = some patch →
        firstChildElementNamed patch.children "parameters" = none →
        FXPHumanReadable.from_xml doc wts = .error .attributeError) := by
  constructor
  · intro doc wts patch ps hp hm hps
    simp only [FXPHumanReadable.from_xml, hp, hm, hps, Option.map_none']
    exact ⟨_, rfl, rfl⟩
  · intro doc wts patch hp hps
    simp only [FXPHumanReadable.from_xml, hp, hps]

/-- C6 witness: scenario one on `<patch><parameters/></patch>` (no meta
key, no error), scenario two on `<patch/>` (error). -/
theorem claim6_witness :
    (∃ r, FXPHumanReadable.from_xml
        [XmlElem.elem "patch" [] [XmlElem.elem "parameters" [] []]] [] = .ok r ∧
        r.extracted_xml_data.meta = none) ∧
      FXPHumanReadable.from_xml [XmlElem.elem "patch" [] [XmlElem.elem "other" [] []]] [] =
        .error .attributeError :=
  ⟨claim6_amended.1 [XmlElem.elem "patch" [] [XmlElem.elem "parameters" [] []]] []
      (XmlElem.elem "patch" [] [XmlElem.elem "parameters" [] []])
      (XmlElem.elem "parameters" [] []) rfl rfl rfl,
    claim6_amended.2 [XmlElem.elem "patch" [] [XmlElem.elem "other" [] []]] []
      (XmlElem.elem "patch" [] [XmlElem.elem "other" [] []]) rfl rfl⟩

/-- C7: when the payload has a `patch` root whose `parameters` element
lists child parameter elements with (pairwise distinct) names in a given
document order, extraction yields a parameters mapping whose iteration
order equals that document order, each entry carrying the element's
`type` and `value` attributes verbatim. -/
theorem claim7_param_order (doc : List XmlElem) (wts : List (List Nat))
    (patch ps : XmlElem)
    (hp : firstChildElementNamed doc "patch" = some patch)
    (hps : firstChildElementNamed patch.children "parameters" = some ps)
    (hnodup : (ps.children.map XmlElem.tag).Nodup) :
    ∃ r, FXPHumanReadable.from_xml doc wts = .ok r ∧
      r.extracted_xml_data.parameters =
        ps.children.map (fun e => (e.tag, ⟨e.attribute "type", e.attribute "value"⟩)) := by
  simp only [FXPHumanReadable.from_xml, hp, hps]
  refine ⟨_, rfl, ?_⟩
  rw [collectParams_append ps.children [] (by simpa using hnodup)]
  simp

/-- C7 witness: parameters `cutoff`, `resonance`, `drive` in that document
order are extracted in that order with their attributes verbatim. -/
theorem claim7_witness :
    ∃ r, FXPHumanReadable.from_xml
        [XmlElem.elem "patch" []
          [XmlElem.elem "parameters" []
            [XmlElem.elem "cutoff" [("type", "f"), ("value", "0.5")] [],
              XmlElem.elem "resonance" [("type", "f"), ("value", "0.7")] [],
              XmlElem.elem "drive" [("type", "f"), ("value", "0.9")] []]]] [] = .ok r ∧
      r.extracted_xml_data.parameters =
        [XmlElem.elem "cutoff" [("type", "f"), ("value", "0.5")] [],
          XmlElem.elem "resonance" [("type", "f"), ("value", "0.7")] [],
          XmlElem.elem "drive" [("type", "f"), ("value", "0.9")] []].map
          (fun e => (e.tag, ⟨e.attribute "type", e.attribute "value"⟩)) :=
  claim7_param_order
    [XmlElem.elem "patch" []
      [XmlElem.elem "parameters" []
        [XmlElem.elem "cutoff" [("type", "f"), ("value", "0.5")] [],
          XmlElem.elem "resonance" [("type", "f"), ("value", "0.7")] [],
          XmlElem.elem "drive" [("type", "f"), ("value", "0.9")] []]]] []
    (XmlElem.elem "patch" []
      [XmlElem.elem "parameters" []
        [XmlElem.elem "cutoff" [("type", "f"), ("value", "0.5")] [],
          XmlElem.elem "resonance" [("type", "f"), ("value", "0.7")] [],
          XmlElem.elem "drive" [("type", "f"), ("value", "0.9")] []]])
    (XmlElem.elem "parameters" []
      [XmlElem.elem "cutoff" [("type", "f"), ("value", "0.5")] [],
        XmlElem.elem "resonance" [("type", "f"), ("value", "0.7")] [],
        XmlElem.elem "drive" [("type", "f"), ("value", "0.9")] []])
    rfl rfl (by decide)

/-! ### Base64 and the JSON interchange form (panflute_test.py)

`to_json` serialises the extracted data plus the base64 encoding of each
wavetable blob; `from_json` reads them back, base64-decoding each blob.
The JSON text codec itself is the external capability the spec places out
of scope, and `json.loads(json.dumps(x)) = x` for the values involved, so
the interchange form is modelled as the structured value carried by the
JSON text: the extracted data together with the base64 character strings
(as ASCII byte lists). -/

/-- The base64 alphabet as ASCII codes: `A-Z`, `a-z`, `0-9`, `+`, `/`. -/
def b64Chars : List Nat :=
  [65, 66, 67, 68, 69, 70, 71, 72, 73, 74, 75, 76, 77, 78, 79, 80, 81, 82, 83, 84,
    85, 86, 87, 88, 89, 90,
    97, 98, 99, 100, 101, 102, 103, 104, 105, 106, 107, 108, 109, 110, 111, 112,
    113, 114, 115, 116, 117, 118, 119, 120, 121, 122,
    48, 49, 50, 51, 52, 53, 54, 55, 56, 57, 43, 47]

/-- ASCII code of the base64 character for a sextet. -/
def b64Char (n : Nat) : Nat := b64Chars.getD n 0

/-- Model of `base64.b64encode` (`=` padding, code 61). -/
def b64encode : List Nat → List Nat
  | [] => []
  | [a] => [b64Char (a / 4), b64Char (a % 4 * 16), 61, 61]
  | [a, b] => [b64Char (a / 4), b64Char (a % 4 * 16 + b / 16), b64Char (b % 16 * 4), 61]
  | a :: b :: c :: rest =>
    b64Char (a / 4) :: b64Char (a % 4 * 16 + b / 16) :: b64Char (b % 16 * 4 + c / 64) ::
      b64Char (c % 64) :: b64encode rest

/-- Value of a base64 alphabet character, `none` for any other byte. -/
def b64Value (c : Nat) : Option Nat :=
  if 65 ≤ c ∧ c ≤ 90 then some (c - 65)
  else if 97 ≤ c ∧ c ≤ 122 then some (c - 71)
  else if 48 ≤ c ∧ c ≤ 57 then some (c + 4)
  else if c = 43 then some 62
  else if c = 47 then some 63
  else none

/-- Decode one base64 quartet: the recovered bytes and whether the group
was padded (and must therefore be the last one). -/
def b64decodeGroup (c1 c2 c3 c4 : Nat) : Option (List Nat × Bool) :=
  (b64Value c1).bind (fun v1 =>
    (b64Value c2).bind (fun v2 =>
      if c3 = 61 then
        if c4 = 61 then some ([v1 * 4 + v2 / 16], true) else none
      else
        (b64Value c3).bind (fun v3 =>
          if c4 = 61 then some ([v1 * 4 + v2 / 16, v2 % 16 * 16 + v3 / 4], true)
          else
            (b64Value c4).bind (fun v4 =>
              some ([v1 * 4 + v2 / 16, v2 % 16 * 16 + v3 / 4, v3 % 4 * 64 + v4], false)))))

/-- Model of `base64.b64decode`: quartets of alphabet characters, with a
padded quartet allowed only at the end; anything else raises
`binascii.Error`. -/
def b64decode : List Nat → Option (List Nat)
  | [] => some []
  | c1 :: c2 :: c3 :: c4 :: rest =>
    match b64decodeGroup c1 c2 c3 c4 with
    | some (bs, false) => (b64decode rest).map (fun t => bs ++ t)
    | some (bs, true) => if rest = [] then some bs else none
    | none => none
  | _ => none

theorem b64Value_b64Char : ∀ n, n < 64 → b64Value (b64Char n) = some n := by decide

theorem b64Char_ne_61 : ∀ n, n < 64 → b64Char n ≠ 61 := by decide

theorem b64decodeGroup_full (a b c : Nat) (ha : a < 256) (hb : b < 256) (hc : c < 256) :
    b64decodeGroup (b64Char (a / 4)) (b64Char (a % 4 * 16 + b / 16))
      (b64Char (b % 16 * 4 + c / 64)) (b64Char (c % 64)) = some ([a, b, c], false) := by
  unfold b64decodeGroup
  rw [b64Value_b64Char _ (by omega), b64Value_b64Char _ (by omega)]
  simp only [Option.some_bind]
  rw [if_neg (b64Char_ne_61 _ (by omega))]
  rw [b64Value_b64Char _ (by omega)]
  simp only [Option.some_bind]
  rw [if_neg (b64Char_ne_61 _ (by omega))]
  rw [b64Value_b64Char _ (by omega)]
  simp only [Option.some_bind]
  have e1 : a / 4 * 4 + (a % 4 * 16 + b / 16) / 16 = a := by omega
  have e2 : (a % 4 * 16 + b / 16) % 16 * 16 + (b % 16 * 4 + c / 64) / 4 = b := by omega
  have e3 : (b % 16 * 4 + c / 64) % 4 * 64 + c % 64 = c := by omega
  rw [e1, e2, e3]

theorem b64decodeGroup_two (a b : Nat) (ha : a < 256) (hb : b < 256) :
    b64decodeGroup (b64Char (a / 4)) (b64Char (a % 4 * 16 + b / 16))
      (b64Char (b % 16 * 4)) 61 = some ([a, b], true) := by
  unfold b64decodeGroup
  rw [b64Value_b64Char _ (by omega), b64Value_b64Char _ (by omega)]
  simp only [Option.some_bind]
  rw [if_neg (b64Char_ne_61 _ (by omega))]
  rw [b64Value_b64Char _ (by omega)]
  simp only [Option.some_bind, if_true]
  have e1 : a / 4 * 4 + (a % 4 * 16 + b / 16) / 16 = a := by omega
  have e2 : (a % 4 * 16 + b / 16) % 16 * 16 + b % 16 * 4 / 4 = b := by omega
  rw [e1, e2]

theorem b64decodeGroup_one (a : Nat) (ha : a < 256) :
    b64decodeGroup (b64Char (a / 4)) (b64Char (a % 4 * 16)) 61 61 = some ([a], true) := by
  unfold b64decodeGroup
  rw [b64Value_b64Char _ (by omega), b64Value_b64Char _ (by omega)]
  simp only [Option.some_bind, if_true]
  have e1 : a / 4 * 4 + a % 4 * 16 / 16 = a := by omega
  rw [e1]

theorem b64decode_encode : ∀ (l : List Nat), (∀ b ∈ l, b < 256) →
    b64decode (b64encode l) = some l
  | [], _ => rfl
  | [a], h => by
    have ha : a < 256 := h a (by simp)
    show b64decode [b64Char (a / 4), b64Char (a % 4 * 16), 61, 61] = some [a]
    rw [b64decode, b64decodeGroup_one a ha]
    rfl
  | [a, b], h => by
    have ha : a < 256 := h a (by simp)
    have hb : b < 256 := h b (by simp)
    show b64decode
      [b64Char (a / 4), b64Char (a % 4 * 16 + b / 16), b64Char (b % 16 * 4), 61] = some [a, b]
    rw [b64decode, b64decodeGroup_two a b ha hb]
    rfl
  | a :: b :: c :: rest, h => by
    have ha : a < 256 := h a (by simp)
    have hb : b < 256 := h b (by simp)
    have hc : c < 256 := h c (by simp)
    show b64decode
      (b64Char (a / 4) :: b64Char (a % 4 * 16 + b / 16) :: b64Char (b % 16 * 4 + c / 64) ::
        b64Char (c % 64) :: b64encode rest) = some (a :: b :: c :: rest)
    rw [b64decode, b64decodeGroup_full a b c ha hb hc]
    show (b64decode (b64encode rest)).map (fun t => [a, b, c] ++ t) = _
    rw [b64decode_encode rest (fun x hx => h x (by simp [hx]))]
    rfl

/-- The structured value carried by the JSON interchange text: the
extracted XML data under the `"extracted_xml_data"` key and the base64
strings (as ASCII byte lists) under `"wavetables"`. -/
structure InterchangeForm where
  extracted_xml_data : ExtractedData
  wavetables : List (List Nat)
deriving DecidableEq, Repr

/-- The per-blob decoding loop of `from_json`
(`[base64.b64decode(wt) for wt in data["wavetables"]]`), raising on the
first undecodable entry. -/
def decodeAll : List (List Nat) → Option (List (List Nat))
  | [] => some []
  | x :: xs =>
    match b64decode x with
    | some bsx => (decodeAll xs).map (fun rest => bsx :: rest)
    | none => none

/-- Model of `FXPHumanReadable.to_json`: the value serialised into the
JSON text — the extracted data plus the base64 encoding of each wavetable
blob in order. -/
def FXPHumanReadable.to_json (v : FXPHumanReadable) : InterchangeForm :=
  { extracted_xml_data := v.extracted_xml_data
    wavetables := v.wavetables.map b64encode }

/-- Model of `FXPHumanReadable.from_json`: read the two keys back and
base64-decode each wavetable entry. -/
def FXPHumanReadable.from_json (d : InterchangeForm) : Except PyError FXPHumanReadable :=
  match decodeAll d.wavetables with
  | some ws => .ok { extracted_xml_data := d.extracted_xml_data, wavetables := ws }
  | none => .error .valueError

theorem decodeAll_encode : ∀ (ws : List (List Nat)), (∀ wt ∈ ws, ∀ b ∈ wt, b < 256) →
    decodeAll (ws.map b64encode) = some ws
  | [], _ => rfl
  | w :: ws, h => by
    rw [List.map_cons, decodeAll, b64decode_encode w (h w (by simp)),
      decodeAll_encode ws (fun wt hwt => h wt (by simp [hwt]))]
    rfl

/-- C8: `from_json` inverts `to_json`: for every human-readable view
(whose wavetable entries are byte values), converting to the interchange
form and back recovers the extracted data and every wavetable blob
byte-for-byte — base64 encoding then decoding is exact. -/
theorem claim8_interchange_roundtrip (v : FXPHumanReadable)
    (h : ∀ wt ∈ v.wavetables, ∀ b ∈ wt, b < 256) :
    FXPHumanReadable.from_json (FXPHumanReadable.to_json v) = .ok v := by
  unfold FXPHumanReadable.to_json FXPHumanReadable.from_json
  rw [decodeAll_encode v.wavetables h]

/-- C8 witness: a view with one two-byte blob `[0, 255]` round-trips
through the interchange form. -/
theorem claim8_witness :
    FXPHumanReadable.from_json
        (FXPHumanReadable.to_json ⟨⟨none, []⟩, [[0, 255]]⟩) =
      .ok ⟨⟨none, []⟩, [[0, 255]]⟩ :=
  claim8_interchange_roundtrip ⟨⟨none, []⟩, [[0, 255]]⟩ (by decide)

/-! ### `check_parsing_strict` (panflute_test.py)

The function is marked `DO NOT MODIFY`. After loading the binary data it
calls `FXPHumanReadable.from_binary_data(binary_data)`. The class defines
only `__init__`, `from_xml`, `to_json` and `from_json`, so the attribute
lookup raises `AttributeError`, which the surrounding `except Exception`
catches and reports as an error. -/

/-- The attributes defined on the `FXPHumanReadable` class in the source. -/
def fxpHumanReadableClassAttrs : List String :=
  ["__init__", "from_xml", "to_json", "from_json"]

/-- Python attribute lookup on the `FXPHumanReadable` class. -/
def getattrFXPHumanReadable (name : String) : Option Unit :=
  if name ∈ fxpHumanReadableClassAttrs then some () else none

/-- Outcome of one `check_parsing_strict` run: the success print
(`Processed …`) or the caught-exception print (`Error processing …`). -/
inductive CheckOutcome where
  | processed
  | errorReported
deriving DecidableEq, Repr

/-- Model of `check_parsing_strict`: any exception from `load` is caught;
otherwise the `from_binary_data` lookup must succeed for the rest of the
pipeline (and eventually the success print) to be reached. -/
def check_parsing_strict (file : List Nat) : CheckOutcome :=
  match FXPBinaryData.load file with
  | none => .errorReported
  | some _ =>
    match getattrFXPHumanReadable "from_binary_data" with
    | none => .errorReported
    | some _ => .processed

/-- C10: `check_parsing_strict` never reports success: either `load`
raises, or the lookup of the undefined `FXPHumanReadable.from_binary_data`
attribute raises `AttributeError`; both are caught by the generic handler
and reported as errors. -/
theorem claim10_strict_never_succeeds (file : List Nat) :
    check_parsing_strict file = .errorReported := by
  unfold check_parsing_strict
  cases h : FXPBinaryData.load file with
  | none => rfl
  | some bd => rfl
